import Mathlib

/-!
Verification of the Copilot-Router core: the rule-based model router
(`select_model` in `main.py`), the workflow executor (`execute_tool_chain`
in `tools.py`), the key-value memory (`memory.py`), and the HTTP handlers
`route_to_model` and `run_workflow` (in `main.py`), shallowly embedded in
Lean.  Strings are modelled by Lean `String` (lists of characters);
Python `str.lower()` is modelled by mapping `Char.toLower` over the
characters (the ASCII range, which is what the configuration data uses);
Python dictionaries are modelled by association lists (`List.lookup`);
the outbound HTTP call is an oracle parameter returning either a response
body or one of the failure classes distinguished by the code's `except`
clauses.
-/

/-- Python `s.lower()`: lower-case every character. -/
def strLower (s : String) : String :=
  String.mk (s.data.map Char.toLower)

/-- Python `s.split(".")` on a character list: greatest decomposition at
the separator character, so `"".split(".") == [""]`, `"a.".split(".") ==
["a", ""]`, and a dot-free string splits into the singleton list holding
the whole string. -/
def splitDot : List Char → List (List Char)
  | [] => [[]]
  | c :: rest =>
    match splitDot rest with
    | [] => [[]]
    | h :: t => if c = '.' then [] :: h :: t else (c :: h) :: t

/-- Embeds `file_path.split(".")[-1].lower()` from `select_model`
(main.py line 50): the segment after the last dot, lower-cased. -/
def extOf (file_path : String) : String :=
  String.mk (((splitDot file_path.data).getLastD []).map Char.toLower)

/-- Python list/string containment helper: does `s` start with `k`? -/
def listStartsWith : List Char → List Char → Bool
  | [], _ => true
  | _ :: _, [] => false
  | a :: as, b :: bs => a == b && listStartsWith as bs

/-- Python `k in s` for strings: `k` occurs as a contiguous substring of
`s` (the empty string is contained in everything). -/
def listContainsSub (k : List Char) : List Char → Bool
  | [] => k.isEmpty
  | c :: rest => listStartsWith k (c :: rest) || listContainsSub k rest

/-- A routing rule from `routing_rules.yaml`: the two match lists (absent
keys default to `[]` via `rule["match"].get(..., [])`) and the target
model identifier. -/
structure RoutingRule where
  file_extension : List String
  prompt_contains : List String
  route_to : String

/-- The loop body condition of `select_model` (main.py lines 57-64):
`(not exts or ext in exts) and (not kws or any(k in prompt_lower for k in
kws))`. -/
def ruleMatches (r : RoutingRule) (ext promptLower : String) : Bool :=
  (r.file_extension.isEmpty || r.file_extension.contains ext) &&
    (r.prompt_contains.isEmpty ||
      r.prompt_contains.any fun k => listContainsSub k.data promptLower.data)

/-- The `for` loop of `select_model`: return the `route_to` of the first
rule whose predicate holds, else `none`. -/
def selectFirst : List RoutingRule → String → String → Option String
  | [], _, _ => none
  | r :: rs, ext, pl =>
    if ruleMatches r ext pl then some r.route_to else selectFirst rs ext pl

/-- The hardcoded fallback model of `select_model` (main.py line 72). -/
def fallbackModel : String := "ollama.com/library/qwen3:4b-q4_K_M"

/-- Embeds `select_model(file_path, prompt)` (main.py lines 42-74):
derive the extension and the lower-cased prompt, scan the rules in order,
fall back to the hardcoded default model. -/
def select_model (rules : List RoutingRule) (file_path prompt : String) : String :=
  (selectFirst rules (extOf file_path) (strLower prompt)).getD fallbackModel

/-- Spec-level statement that `k` is a substring of `s`. -/
def SubstringOf (k s : String) : Prop :=
  ∃ l₁ l₂ : List Char, s.data = l₁ ++ k.data ++ l₂

/-- Spec-level match predicate for a rule, written from the spec's words:
the extension set is empty or the derived extension is a member, and the
keyword set is empty or some keyword is a substring of the lower-cased
prompt. -/
def specRuleMatches (r : RoutingRule) (file_path prompt : String) : Prop :=
  (r.file_extension = [] ∨ extOf file_path ∈ r.file_extension) ∧
    (r.prompt_contains = [] ∨
      ∃ k ∈ r.prompt_contains, SubstringOf k (strLower prompt))

/-- A workflow step from `workflows.yaml`: a tagged variant, either a
model invocation (`step["type"] == "model"`) with its model identifier
and action text, or a tool step (`step["type"] == "tool"`), a no-op. -/
inductive WorkflowStep where
  | model (model action : String)
  | tool (tool : String)

/-- The failure classes distinguished by the `except` clauses of
`route_to_model` (main.py lines 107-140): `httpx.ConnectError`,
`httpx.TimeoutException`, `httpx.HTTPStatusError` with its status code,
and the catch-all `Exception`. -/
inductive BackendFailure where
  | connectError (msg : String)
  | timeoutError (msg : String)
  | statusError (status : Nat)
  | otherError (msg : String)

/-- An error escaping a workflow step (tools.py has no `try`): either the
`KeyError` from `MODELS[model]` when the model is absent from the
registry, or a failure of the outbound HTTP call. -/
inductive StepError where
  | keyError (model : String)
  | backend (f : BackendFailure)

/-- The process-wide `MEMORY` dictionary of memory.py. -/
abbrev Memory := String → Option String

/-- Embeds `set_memory(key, value)` (memory.py line 19): overwrite the
value stored under `key`. -/
def set_memory (mem : Memory) (key value : String) : Memory :=
  fun q => if q = key then some value else mem q

/-- Embeds `get_memory(key)` (memory.py line 9): the stored value, or
`none` when the key is absent. -/
def get_memory (mem : Memory) (key : String) : Option String :=
  mem key

/-- The empty `MEMORY` dictionary at process start. -/
def emptyMemory : Memory := fun _ => none

/-- The `for step in steps` loop of `execute_tool_chain` (tools.py lines
31-48).  `backend endpoint model prompt` is the oracle for the outbound
`POST {endpoint}/v1/chat/completions` together with the extraction of
`response.json()["choices"][0]["message"]["content"]`; it returns the
content on success and the raised failure otherwise.  The returned pair
carries the loop result (or the error that aborted it) and the memory as
left behind by the steps that did run. -/
def runSteps (models : List (String × String))
    (backend : String → String → String → Except BackendFailure String)
    (workflow_name : String) :
    List WorkflowStep → String → Memory → (Except StepError String) × Memory
  | [], output, mem => (Except.ok output, mem)
  | WorkflowStep.model m action :: rest, output, mem =>
    let prompt := action ++ "\n\n" ++ output
    match List.lookup m models with
    | none => (Except.error (StepError.keyError m), mem)
    | some endpoint =>
      match backend endpoint m prompt with
      | Except.error f => (Except.error (StepError.backend f), mem)
      | Except.ok content =>
        runSteps models backend workflow_name rest content
          (set_memory mem (workflow_name ++ ":" ++ m) content)
  | WorkflowStep.tool _ :: rest, output, mem =>
    runSteps models backend workflow_name rest output mem

/-- Embeds `execute_tool_chain(workflow_name, input_text)` (tools.py
lines 19-50): look the workflow up with `WORKFLOWS.get(workflow_name,
[])`, seed `output` with `input_text`, run the steps. -/
def execute_tool_chain (models : List (String × String))
    (workflows : List (String × List WorkflowStep))
    (backend : String → String → String → Except BackendFailure String)
    (workflow_name input_text : String) (mem : Memory) :
    (Except StepError String) × Memory :=
  runSteps models backend workflow_name
    ((List.lookup workflow_name workflows).getD []) input_text mem

/-- Spec-level dispatch of one model call, written from the spec's words
for the Backend Dispatcher: look the identifier up in the registry,
failing if absent, otherwise invoke the backend. -/
def specDispatch (models : List (String × String))
    (backend : String → String → String → Except BackendFailure String)
    (m prompt : String) : Except StepError String :=
  match List.lookup m models with
  | none => Except.error (StepError.keyError m)
  | some endpoint => (backend endpoint m prompt).mapError StepError.backend

/-- Spec-level step function, written from the spec's words: a failed
state absorbs; a `ModelStep` builds `prompt = action + "\n\n" + output`,
dispatches it, and on success replaces the output and records it into
Memory under `workflow_name ++ ":" ++ model`; a `ToolStep` is a no-op. -/
def specStepFun (models : List (String × String))
    (backend : String → String → String → Except BackendFailure String)
    (workflow_name : String)
    (st : (Except StepError String) × Memory) (step : WorkflowStep) :
    (Except StepError String) × Memory :=
  match st with
  | (Except.error e, mem) => (Except.error e, mem)
  | (Except.ok output, mem) =>
    match step with
    | WorkflowStep.model m action =>
      match specDispatch models backend m (action ++ "\n\n" ++ output) with
      | Except.error e => (Except.error e, mem)
      | Except.ok content =>
        (Except.ok content, set_memory mem (workflow_name ++ ":" ++ m) content)
    | WorkflowStep.tool _ => (Except.ok output, mem)

/-- The body of a chat-completion request as `route_to_model` reads it:
`data.get("file", "unknown.txt")` and `data["messages"][-1]["content"]`
(main.py lines 87-88); `messages` holds the content strings. -/
structure ChatRequest where
  file : Option String
  messages : List String

/-- What `route_to_model` returns to its caller: either the backend's
response body, or the structured payload built by an `except` clause,
carrying the `message` and `type` fields of its `error` object. -/
inductive RouterResponse where
  | success (body : String)
  | errorPayload (message type : String)

/-- Embeds the `/v1/chat/completions` handler `route_to_model` (main.py
lines 78-140): extract the prompt from the last message (an absent or
empty `messages` raises and lands in the catch-all clause), route with
`select_model`, look the model up in `MODELS` (a `KeyError` lands in the
catch-all clause), call the backend, and translate each failure class
into its JSON error payload.  `backend endpoint model` is the oracle for
the outbound `POST` of the request against the resolved endpoint. -/
def route_to_model (models : List (String × String)) (rules : List RoutingRule)
    (backend : String → String → Except BackendFailure String)
    (req : ChatRequest) : RouterResponse :=
  match req.messages.getLast? with
  | none => RouterResponse.errorPayload
      "Internal server error: list index out of range" "internal_error"
  | some prompt =>
    let file_path := req.file.getD "unknown.txt"
    let model := select_model rules file_path prompt
    match List.lookup model models with
    | none => RouterResponse.errorPayload
        ("Internal server error: " ++ model) "internal_error"
    | some endpoint =>
      match backend endpoint model with
      | Except.ok body => RouterResponse.success body
      | Except.error (BackendFailure.connectError m) =>
        RouterResponse.errorPayload
          ("Backend model server unavailable: " ++ m) "connection_error"
      | Except.error (BackendFailure.timeoutError m) =>
        RouterResponse.errorPayload
          ("Backend model server timeout: " ++ m) "timeout_error"
      | Except.error (BackendFailure.statusError st) =>
        RouterResponse.errorPayload
          ("Backend returned error: " ++ toString st) "http_error"
      | Except.error (BackendFailure.otherError m) =>
        RouterResponse.errorPayload
          ("Internal server error: " ++ m) "internal_error"

/-- Spec-level error taxonomy mapping, written from the spec's words: the
stable `type` discriminant attached to each Dispatcher failure class. -/
def errorType : BackendFailure → String
  | BackendFailure.connectError _ => "connection_error"
  | BackendFailure.timeoutError _ => "timeout_error"
  | BackendFailure.statusError _ => "http_error"
  | BackendFailure.otherError _ => "internal_error"

/-- Spec-level error message for each Dispatcher failure class, matching
the `message` fields built by the `except` clauses. -/
def errorMessage : BackendFailure → String
  | BackendFailure.connectError m => "Backend model server unavailable: " ++ m
  | BackendFailure.timeoutError m => "Backend model server timeout: " ++ m
  | BackendFailure.statusError st => "Backend returned error: " ++ toString st
  | BackendFailure.otherError m => "Internal server error: " ++ m

/-- The body of a workflow request as `run_workflow` reads it:
`data.get("input", "")` (main.py line 673). -/
structure WorkflowRequest where
  input : Option String

/-- The JSON body `run_workflow` returns on success (main.py line 675). -/
structure WorkflowResponse where
  workflow : String
  result : String

/-- Embeds the `/v1/workflows/{workflow_name}` handler `run_workflow`
(main.py lines 664-675): it awaits `execute_tool_chain` with no `try`
around it, so a step error escapes the handler as a raised exception
(`Except.error`) instead of a JSON payload. -/
def run_workflow (models : List (String × String))
    (workflows : List (String × List WorkflowStep))
    (backend : String → String → String → Except BackendFailure String)
    (workflow_name : String) (req : WorkflowRequest) (mem : Memory) :
    (Except StepError WorkflowResponse) × Memory :=
  let input_text := req.input.getD ""
  match execute_tool_chain models workflows backend workflow_name input_text mem with
  | (Except.ok out, mem2) => (Except.ok ⟨workflow_name, out⟩, mem2)
  | (Except.error e, mem2) => (Except.error e, mem2)

theorem listStartsWith_iff (k s : List Char) :
    listStartsWith k s = true ↔ ∃ t, s = k ++ t := by
  induction k generalizing s with
  | nil => simp [listStartsWith]
  | cons a as ih =>
    cases s with
    | nil => simp [listStartsWith]
    | cons b bs =>
      simp [listStartsWith, ih, eq_comm (a := a) (b := b)]

theorem listContainsSub_iff (k s : List Char) :
    listContainsSub k s = true ↔ ∃ l₁ l₂, s = l₁ ++ k ++ l₂ := by
  induction s with
  | nil =>
    simp only [listContainsSub, List.isEmpty_iff]
    constructor
    · intro h
      exact ⟨[], [], by simp [h]⟩
    · rintro ⟨l₁, l₂, h⟩
      rcases List.append_eq_nil.mp h.symm with ⟨h1, h2⟩
      exact (List.append_eq_nil.mp h1).2
  | cons c rest ih =>
    simp only [listContainsSub, Bool.or_eq_true, listStartsWith_iff, ih]
    constructor
    · rintro (⟨t, ht⟩ | ⟨l₁, l₂, h⟩)
      · exact ⟨[], t, by simp [ht]⟩
      · exact ⟨c :: l₁, l₂, by simp [h]⟩
    · rintro ⟨l₁, l₂, h⟩
      cases l₁ with
      | nil => exact Or.inl ⟨l₂, by simpa using h⟩
      | cons x xs =>
        simp only [List.cons_append, List.cons.injEq] at h
        exact Or.inr ⟨xs, l₂, h.2⟩

theorem substringOf_iff (k s : String) :
    listContainsSub k.data s.data = true ↔ SubstringOf k s :=
  listContainsSub_iff k.data s.data

theorem ruleMatches_iff (r : RoutingRule) (file_path prompt : String) :
    ruleMatches r (extOf file_path) (strLower prompt) = true ↔
      specRuleMatches r file_path prompt := by
  simp [ruleMatches, specRuleMatches, List.isEmpty_iff, List.any_eq_true,
    substringOf_iff]

theorem selectFirst_eq_of_first (pre : List RoutingRule) (r : RoutingRule)
    (post : List RoutingRule) (ext pl : String)
    (hpre : ∀ r2 ∈ pre, ruleMatches r2 ext pl = false)
    (hr : ruleMatches r ext pl = true) :
    selectFirst (pre ++ r :: post) ext pl = some r.route_to := by
  induction pre with
  | nil => simp [selectFirst, hr]
  | cons q qs ih =>
    have hq : ruleMatches q ext pl = false := hpre q (by simp)
    simp only [List.cons_append, selectFirst, hq]
    simp only [Bool.false_eq_true, if_false]
    exact ih fun r2 h2 => hpre r2 (by simp [h2])

theorem toNat_ofNat_valid (n : Nat) (h : n.isValidChar) :
    (Char.ofNat n).toNat = n := by
  simp only [Char.ofNat, dif_pos h]
  rfl

theorem toLower_eq_dot_iff (c : Char) : c.toLower = '.' ↔ c = '.' := by
  unfold Char.toLower
  dsimp only
  split
  · rename_i h
    constructor
    · intro hd
      exfalso
      have h2 : (Char.ofNat (c.toNat + 32)).toNat = c.toNat + 32 :=
        toNat_ofNat_valid _ (Or.inl (by omega))
      rw [hd] at h2
      have h3 : ('.').toNat = 46 := rfl
      omega
    · intro hd
      subst hd
      have h3 : ('.').toNat = 46 := rfl
      omega
  · exact Iff.rfl

theorem splitDot_ne_nil (l : List Char) : splitDot l ≠ [] := by
  cases l with
  | nil => simp [splitDot]
  | cons c rest =>
    simp only [splitDot]
    cases h : splitDot rest with
    | nil => simp
    | cons a t =>
      by_cases hc : c = '.' <;> simp [hc]

theorem splitDot_map_toLower (l : List Char) :
    splitDot (l.map Char.toLower) = (splitDot l).map (List.map Char.toLower) := by
  induction l with
  | nil => rfl
  | cons c rest ih =>
    simp only [List.map_cons, splitDot, ih]
    cases h : splitDot rest with
    | nil => exact absurd h (splitDot_ne_nil rest)
    | cons a t =>
      simp only [List.map_cons]
      by_cases hc : c = '.'
      · rw [if_pos ((toLower_eq_dot_iff c).mpr hc), if_pos hc]
        simp
      · rw [if_neg (fun hv => hc ((toLower_eq_dot_iff c).mp hv)), if_neg hc]
        simp

theorem getLastD_map {α β : Type} (f : α → β) (l : List α) (d : α) :
    (l.map f).getLastD (f d) = f (l.getLastD d) := by
  induction l generalizing d with
  | nil => rfl
  | cons a t ih =>
    rw [List.map_cons, List.getLastD_cons, List.getLastD_cons]
    exact ih a

theorem extOf_lower_invariant (fp₁ fp₂ : String)
    (h : fp₁.data.map Char.toLower = fp₂.data.map Char.toLower) :
    extOf fp₁ = extOf fp₂ := by
  unfold extOf
  have h1 : (splitDot fp₁.data).map (List.map Char.toLower) =
      (splitDot fp₂.data).map (List.map Char.toLower) := by
    rw [← splitDot_map_toLower, ← splitDot_map_toLower, h]
  have h2 : ((splitDot fp₁.data).map (List.map Char.toLower)).getLastD [] =
      ((splitDot fp₂.data).map (List.map Char.toLower)).getLastD [] := by
    rw [h1]
  rw [show ([] : List Char) = List.map Char.toLower [] from rfl] at h2
  rw [getLastD_map, getLastD_map] at h2
  rw [h2]

theorem splitDot_no_dot (l : List Char) (h : '.' ∉ l) : splitDot l = [l] := by
  induction l with
  | nil => rfl
  | cons c rest ih =>
    have hc : c ≠ '.' := fun hv => h (hv ▸ List.mem_cons_self c rest)
    have hrest : '.' ∉ rest := fun hv => h (List.mem_cons_of_mem c hv)
    simp only [splitDot, ih hrest, if_neg hc]

theorem specStepFun_error (models : List (String × String))
    (backend : String → String → String → Except BackendFailure String)
    (wf : String) (steps : List WorkflowStep) (e : StepError) (mem : Memory) :
    steps.foldl (specStepFun models backend wf) (Except.error e, mem) =
      (Except.error e, mem) := by
  induction steps with
  | nil => rfl
  | cons s rest ih => simpa [specStepFun] using ih

theorem runSteps_eq_foldl (models : List (String × String))
    (backend : String → String → String → Except BackendFailure String)
    (wf : String) (steps : List WorkflowStep) (output : String) (mem : Memory) :
    runSteps models backend wf steps output mem =
      steps.foldl (specStepFun models backend wf) (Except.ok output, mem) := by
  induction steps generalizing output mem with
  | nil => rfl
  | cons s rest ih =>
    cases s with
    | tool t =>
      simp only [runSteps, List.foldl_cons, specStepFun]
      exact ih output mem
    | model m action =>
      simp only [runSteps, List.foldl_cons, specStepFun, specDispatch]
      cases hl : List.lookup m models with
      | none => simp [specStepFun_error]
      | some endpoint =>
        cases hb : backend endpoint m (action ++ "\n\n" ++ output) with
        | error f => simp [hb, Except.mapError, specStepFun_error]
        | ok content => simp [hb, Except.mapError, ih]

theorem selectFirst_eq_none (rules : List RoutingRule) (ext pl : String)
    (h : ∀ r ∈ rules, ruleMatches r ext pl = false) :
    selectFirst rules ext pl = none := by
  induction rules with
  | nil => rfl
  | cons r rs ih =>
    simp only [selectFirst, h r (by simp), Bool.false_eq_true, if_false]
    exact ih fun r2 h2 => h r2 (by simp [h2])

theorem selectFirst_shape (rules : List RoutingRule) (ext pl : String) :
    selectFirst rules ext pl = none ∨
      ∃ r ∈ rules, selectFirst rules ext pl = some r.route_to := by
  induction rules with
  | nil => exact Or.inl rfl
  | cons r rs ih =>
    by_cases h : ruleMatches r ext pl = true
    · exact Or.inr ⟨r, by simp, by simp [selectFirst, h]⟩
    · have hstep : selectFirst (r :: rs) ext pl = selectFirst rs ext pl := by
        simp only [selectFirst, if_neg h]
      rcases ih with hn | ⟨r2, hmem, hval⟩
      · exact Or.inl (hstep.trans hn)
      · exact Or.inr ⟨r2, by simp [hmem], hstep.trans hval⟩

/-- C1: `select_model` returns the `route_to` of the first rule in
declaration order satisfying the spec's match predicate (extension set
empty or the derived extension a member, and keyword set empty or some
keyword a substring of the lower-cased prompt); moreover the boolean
match test of the code coincides with that predicate, and a rule with
both sets empty matches every input. -/
theorem select_model_first_match (rules pre post : List RoutingRule)
    (r : RoutingRule) (file_path prompt : String)
    (hsplit : rules = pre ++ r :: post)
    (hr : specRuleMatches r file_path prompt)
    (hpre : ∀ r2 ∈ pre, ¬ specRuleMatches r2 file_path prompt) :
    select_model rules file_path prompt = r.route_to ∧
      (∀ r2 : RoutingRule,
        (ruleMatches r2 (extOf file_path) (strLower prompt) = true ↔
          specRuleMatches r2 file_path prompt)) ∧
      (∀ r0 : RoutingRule, r0.file_extension = [] → r0.prompt_contains = [] →
        specRuleMatches r0 file_path prompt) := by
  refine ⟨?_, fun r2 => ruleMatches_iff r2 file_path prompt,
    fun r0 he hk => ⟨Or.inl he, Or.inl hk⟩⟩
  subst hsplit
  unfold select_model
  rw [selectFirst_eq_of_first pre r post _ _ ?_ ((ruleMatches_iff r file_path prompt).mpr hr)]
  · rfl
  · intro r2 h2
    cases h : ruleMatches r2 (extOf file_path) (strLower prompt)
    · rfl
    · exact absurd ((ruleMatches_iff r2 file_path prompt).mp h) (hpre r2 h2)

theorem select_model_first_match_witness :
    select_model [⟨["py"], [], "code-model"⟩, ⟨[], ["explain"], "chat-model"⟩]
        "a.txt" "please EXPLAIN this" = "chat-model" ∧
      (∀ r2 : RoutingRule,
        (ruleMatches r2 (extOf "a.txt") (strLower "please EXPLAIN this") = true ↔
          specRuleMatches r2 "a.txt" "please EXPLAIN this")) ∧
      (∀ r0 : RoutingRule, r0.file_extension = [] → r0.prompt_contains = [] →
        specRuleMatches r0 "a.txt" "please EXPLAIN this") :=
  select_model_first_match
    [⟨["py"], [], "code-model"⟩, ⟨[], ["explain"], "chat-model"⟩]
    [⟨["py"], [], "code-model"⟩] [] ⟨[], ["explain"], "chat-model"⟩
    "a.txt" "please EXPLAIN this" rfl
    ((ruleMatches_iff _ _ _).mp (by decide))
    (fun r2 h2 hs => by
      rw [List.mem_singleton] at h2
      subst h2
      exact absurd ((ruleMatches_iff _ "a.txt" "please EXPLAIN this").mpr hs)
        (by decide))

/-- C8: if no rule matches, `select_model` returns the one fixed fallback
identifier, and in every case it returns either the fallback or the
`route_to` of one of its rules (it is total and never fails). -/
theorem select_model_fallback_total (rules : List RoutingRule)
    (file_path prompt : String) :
    ((∀ r ∈ rules, ¬ specRuleMatches r file_path prompt) →
        select_model rules file_path prompt = fallbackModel) ∧
      (select_model rules file_path prompt = fallbackModel ∨
        ∃ r ∈ rules, select_model rules file_path prompt = r.route_to) := by
  constructor
  · intro h
    have hall : ∀ r2 ∈ rules,
        ruleMatches r2 (extOf file_path) (strLower prompt) = false := by
      intro r2 h2
      cases hm : ruleMatches r2 (extOf file_path) (strLower prompt)
      · rfl
      · exact absurd ((ruleMatches_iff r2 file_path prompt).mp hm) (h r2 h2)
    unfold select_model
    rw [selectFirst_eq_none rules _ _ hall]
    rfl
  · rcases selectFirst_shape rules (extOf file_path) (strLower prompt) with hn | ⟨r, hmem, hval⟩
    · exact Or.inl (by unfold select_model; rw [hn]; rfl)
    · exact Or.inr ⟨r, hmem, by unfold select_model; rw [hval]; rfl⟩

theorem select_model_fallback_total_witness :
    (((∀ r ∈ [(⟨["py"], [], "code-model"⟩ : RoutingRule)],
          ¬ specRuleMatches r "a.txt" "hi") →
        select_model [⟨["py"], [], "code-model"⟩] "a.txt" "hi" = fallbackModel) ∧
      (select_model [⟨["py"], [], "code-model"⟩] "a.txt" "hi" = fallbackModel ∨
        ∃ r ∈ [(⟨["py"], [], "code-model"⟩ : RoutingRule)],
          select_model [⟨["py"], [], "code-model"⟩] "a.txt" "hi" = r.route_to)) :=
  select_model_fallback_total [⟨["py"], [], "code-model"⟩] "a.txt" "hi"

/-- C3 (counterexample): for the dot-free path `"py"` the derived
extension is the whole path `"py"`, not `""` as the claim states, and a
rule whose extension set is the non-empty `["py"]` — not a wildcard —
matches it, returning its `route_to` rather than the fallback, so
dot-free inputs are not restricted to wildcard rules. -/
theorem dotless_ext_counterexample :
    extOf "py" = "py" ∧ ("py" : String) ≠ "" ∧
      (⟨["py"], [], "code-model"⟩ : RoutingRule).file_extension ≠ [] ∧
      select_model [⟨["py"], [], "code-model"⟩] "py" "hi" = "code-model" ∧
      ("code-model" : String) ≠ fallbackModel :=
  ⟨by decide, by decide, by decide, by decide, by decide⟩

/-- C3 (amended): for every `file_path` containing no `"."`, the derived
extension is the whole path lower-cased; consequently such an input
satisfies the match predicate of exactly those rules whose extension set
is empty or contains the lower-cased whole path (with the keyword side
unchanged), and in particular a leading rule whose extension set holds
that path and whose keyword set is empty routes the input to its
`route_to`, so dot-free inputs are not restricted to wildcard rules. -/
theorem dotless_ext_whole_path (file_path prompt : String) (r : RoutingRule)
    (rest : List RoutingRule) (h : '.' ∉ file_path.data) :
    extOf file_path = strLower file_path ∧
      (specRuleMatches r file_path prompt ↔
        ((r.file_extension = [] ∨ strLower file_path ∈ r.file_extension) ∧
          (r.prompt_contains = [] ∨
            ∃ k ∈ r.prompt_contains, SubstringOf k (strLower prompt)))) ∧
      (strLower file_path ∈ r.file_extension → r.prompt_contains = [] →
        select_model (r :: rest) file_path prompt = r.route_to) := by
  have hx : extOf file_path = strLower file_path := by
    unfold extOf strLower
    rw [splitDot_no_dot file_path.data h]
    rfl
  refine ⟨hx, ?_, fun hm hk => ?_⟩
  · unfold specRuleMatches
    rw [hx]
  · have hmatch : ruleMatches r (extOf file_path) (strLower prompt) = true :=
      (ruleMatches_iff r file_path prompt).mpr
        ⟨Or.inr (by rw [hx]; exact hm), Or.inl hk⟩
    simp [select_model, selectFirst, hmatch]

theorem dotless_ext_whole_path_witness :
    extOf "makefile" = strLower "makefile" ∧
      (specRuleMatches ⟨["makefile"], [], "m"⟩ "makefile" "hi" ↔
        (((⟨["makefile"], [], "m"⟩ : RoutingRule).file_extension = [] ∨
            strLower "makefile" ∈
              (⟨["makefile"], [], "m"⟩ : RoutingRule).file_extension) ∧
          ((⟨["makefile"], [], "m"⟩ : RoutingRule).prompt_contains = [] ∨
            ∃ k ∈ (⟨["makefile"], [], "m"⟩ : RoutingRule).prompt_contains,
              SubstringOf k (strLower "hi")))) ∧
      (strLower "makefile" ∈ (⟨["makefile"], [], "m"⟩ : RoutingRule).file_extension →
        (⟨["makefile"], [], "m"⟩ : RoutingRule).prompt_contains = [] →
        select_model [⟨["makefile"], [], "m"⟩] "makefile" "hi" =
          (⟨["makefile"], [], "m"⟩ : RoutingRule).route_to) :=
  dotless_ext_whole_path "makefile" "hi" ⟨["makefile"], [], "m"⟩ [] (by decide)

/-- C9 (counterexample): a rule whose extension entry is upper-case
(`"PY"`) fails to match the file `"foo.py"` although the two differ only
by letter case, so matching is not case-insensitive on the rule side. -/
theorem uppercase_rule_entry_counterexample :
    select_model [⟨["PY"], [], "code-model"⟩] "foo.py" "hi" = fallbackModel ∧
      fallbackModel ≠ "code-model" :=
  ⟨by decide, by decide⟩

/-- C9 (amended): matching lower-cases the request's derived extension
and prompt, so it is case-insensitive with respect to the input — two
inputs equal up to letter case select the same model, and `"Foo.PY"`
matches a rule requiring extension `"py"` — while rule entries are
compared verbatim. -/
theorem input_case_insensitive (rules : List RoutingRule)
    (fp₁ fp₂ p₁ p₂ : String)
    (hf : fp₁.data.map Char.toLower = fp₂.data.map Char.toLower)
    (hp : p₁.data.map Char.toLower = p₂.data.map Char.toLower) :
    select_model rules fp₁ p₁ = select_model rules fp₂ p₂ ∧
      (∀ (route : String) (rest : List RoutingRule) (prompt : String),
        select_model (⟨["py"], [], route⟩ :: rest) "Foo.PY" prompt = route) := by
  constructor
  · unfold select_model
    rw [extOf_lower_invariant fp₁ fp₂ hf]
    have hpl : strLower p₁ = strLower p₂ := by unfold strLower; rw [hp]
    rw [hpl]
  · intro route rest prompt
    have hext : extOf "Foo.PY" = "py" := by decide
    have hmatch :
        ruleMatches ⟨["py"], [], route⟩ (extOf "Foo.PY") (strLower prompt) = true := by
      rw [hext]
      rfl
    simp [select_model, selectFirst, hmatch]

theorem input_case_insensitive_witness :
    select_model [⟨["py"], [], "code-model"⟩] "A.PY" "Fix This" =
        select_model [⟨["py"], [], "code-model"⟩] "a.py" "fix thiS" ∧
      (∀ (route : String) (rest : List RoutingRule) (prompt : String),
        select_model (⟨["py"], [], route⟩ :: rest) "Foo.PY" prompt = route) :=
  input_case_insensitive [⟨["py"], [], "code-model"⟩] "A.PY" "a.py"
    "Fix This" "fix thiS" (by decide) (by decide)

/-- C10: a chat request without a `"file"` field is routed with the
default path `"unknown.txt"`, whose derived extension is `"txt"`, so a
rule whose extension set holds `"txt"` applies to file-less requests; the
handler behaves exactly as if the request had carried
`file = "unknown.txt"`. -/
theorem fileless_request_txt_ext (req : ChatRequest)
    (models : List (String × String)) (rules : List RoutingRule)
    (backend : String → String → Except BackendFailure String)
    (r : RoutingRule) (rest : List RoutingRule) (prompt : String)
    (hfile : req.file = none) :
    req.file.getD "unknown.txt" = "unknown.txt" ∧
      extOf "unknown.txt" = "txt" ∧
      ("txt" ∈ r.file_extension → r.prompt_contains = [] →
        select_model (r :: rest) (req.file.getD "unknown.txt") prompt =
          r.route_to) ∧
      route_to_model models rules backend req =
        route_to_model models rules backend ⟨some "unknown.txt", req.messages⟩ := by
  have h1 : req.file.getD "unknown.txt" = "unknown.txt" := by rw [hfile]; rfl
  have hext : extOf "unknown.txt" = "txt" := by decide
  refine ⟨h1, hext, fun hm hk => ?_, ?_⟩
  · have hmatch : ruleMatches r (extOf "unknown.txt") (strLower prompt) = true :=
      (ruleMatches_iff r "unknown.txt" prompt).mpr
        ⟨Or.inr (by rw [hext]; exact hm), Or.inl hk⟩
    rw [h1]
    simp [select_model, selectFirst, hmatch]
  · obtain ⟨file, messages⟩ := req
    simp only at hfile
    subst hfile
    rfl

theorem fileless_request_txt_ext_witness :
    (⟨none, ["hi"]⟩ : ChatRequest).file.getD "unknown.txt" = "unknown.txt" ∧
      extOf "unknown.txt" = "txt" ∧
      ("txt" ∈ (⟨["txt"], [], "text-model"⟩ : RoutingRule).file_extension →
        (⟨["txt"], [], "text-model"⟩ : RoutingRule).prompt_contains = [] →
        select_model [⟨["txt"], [], "text-model"⟩]
          ((⟨none, ["hi"]⟩ : ChatRequest).file.getD "unknown.txt") "hi" =
          (⟨["txt"], [], "text-model"⟩ : RoutingRule).route_to) ∧
      route_to_model [] [] (fun _ _ => Except.ok "resp") ⟨none, ["hi"]⟩ =
        route_to_model [] [] (fun _ _ => Except.ok "resp")
          ⟨some "unknown.txt", (⟨none, ["hi"]⟩ : ChatRequest).messages⟩ :=
  fileless_request_txt_ext ⟨none, ["hi"]⟩ [] [] (fun _ _ => Except.ok "resp")
    ⟨["txt"], [], "text-model"⟩ [] "hi" rfl

/-- C2: workflow execution is a left fold over the named workflow's
steps, starting from the input text, whose step function (written from
the spec's words in `specStepFun`) builds `action ++ "\n\n" ++ output`,
dispatches it against the step's model, replaces the output with the
response content and records it into Memory under
`workflow_name ++ ":" ++ model`, overwriting any prior value; the
accumulator after the last step is returned.  Additionally the spec's
concrete scenario: a one-step `summarize` workflow issues one dispatch
with prompt `"Summarize:\n\nlong text"`, returns its content, and leaves
Memory holding that content under `"summarize:" ++ model`. -/
theorem execute_tool_chain_fold_spec (models : List (String × String))
    (workflows : List (String × List WorkflowStep))
    (backend : String → String → String → Except BackendFailure String)
    (workflow_name input_text : String) (mem : Memory) :
    execute_tool_chain models workflows backend workflow_name input_text mem =
        ((List.lookup workflow_name workflows).getD []).foldl
          (specStepFun models backend workflow_name)
          (Except.ok input_text, mem) ∧
      (∀ (models3 : List (String × String)) (M1 e1 c : String)
          (backend3 : String → String → String → Except BackendFailure String)
          (mem3 : Memory),
        List.lookup M1 models3 = some e1 →
        backend3 e1 M1 ("Summarize:" ++ "\n\n" ++ "long text") = Except.ok c →
        execute_tool_chain models3
            [("summarize", [WorkflowStep.model M1 "Summarize:"])]
            backend3 "summarize" "long text" mem3 =
          (Except.ok c, set_memory mem3 ("summarize" ++ ":" ++ M1) c)) := by
  refine ⟨runSteps_eq_foldl models backend workflow_name _ input_text mem,
    fun models3 M1 e1 c backend3 mem3 hm hc => ?_⟩
  have hc2 : backend3 e1 M1 "Summarize:\n\nlong text" = Except.ok c := hc
  simp [execute_tool_chain, runSteps, hm, hc2]

theorem execute_tool_chain_fold_spec_witness :
    execute_tool_chain [("M1", "e1")]
        [("summarize", [WorkflowStep.model "M1" "Summarize:"])]
        (fun _ _ _ => Except.ok "SUM") "summarize" "long text" emptyMemory =
      (Except.ok "SUM",
        set_memory emptyMemory ("summarize" ++ ":" ++ "M1") "SUM") :=
  (execute_tool_chain_fold_spec [("M1", "e1")]
      [("summarize", [WorkflowStep.model "M1" "Summarize:"])]
      (fun _ _ _ => Except.ok "SUM") "summarize" "long text" emptyMemory).2
    [("M1", "e1")] "M1" "e1" "SUM" (fun _ _ _ => Except.ok "SUM") emptyMemory
    rfl rfl

/-- C5: in a three-step workflow [A, B, C] where A's dispatch succeeds
and B's dispatch fails, `execute_tool_chain` surfaces B's error, leaves
Memory exactly as A left it (A's write remains, no rollback), and C's key
is untouched (C never ran). -/
theorem workflow_step_failure_aborts (models : List (String × String))
    (workflows : List (String × List WorkflowStep))
    (backend : String → String → String → Except BackendFailure String)
    (name input : String) (mem : Memory)
    (mA aA mB aB mC aC eA eB ca : String) (f : BackendFailure)
    (hwf : List.lookup name workflows =
      some [WorkflowStep.model mA aA, WorkflowStep.model mB aB,
        WorkflowStep.model mC aC])
    (hA : List.lookup mA models = some eA)
    (hcallA : backend eA mA (aA ++ "\n\n" ++ input) = Except.ok ca)
    (hB : List.lookup mB models = some eB)
    (hcallB : backend eB mB (aB ++ "\n\n" ++ ca) = Except.error f) :
    execute_tool_chain models workflows backend name input mem =
        (Except.error (StepError.backend f),
          set_memory mem (name ++ ":" ++ mA) ca) ∧
      (execute_tool_chain models workflows backend name input mem).2
          (name ++ ":" ++ mA) = some ca ∧
      (name ++ ":" ++ mC ≠ name ++ ":" ++ mA →
        (execute_tool_chain models workflows backend name input mem).2
            (name ++ ":" ++ mC) = mem (name ++ ":" ++ mC)) := by
  have hmain : execute_tool_chain models workflows backend name input mem =
      (Except.error (StepError.backend f),
        set_memory mem (name ++ ":" ++ mA) ca) := by
    simp [execute_tool_chain, hwf, runSteps, hA, hcallA, hB, hcallB]
  refine ⟨hmain, ?_, fun hne => ?_⟩
  · rw [hmain]
    simp [set_memory]
  · rw [hmain]
    simp [set_memory, hne]

theorem workflow_step_failure_aborts_witness :
    execute_tool_chain [("A", "ea"), ("B", "eb"), ("C", "ec")]
        [("wf", [WorkflowStep.model "A" "a", WorkflowStep.model "B" "b",
          WorkflowStep.model "C" "c"])]
        (fun ep _ _ =>
          if ep = "eb" then Except.error (BackendFailure.connectError "down")
          else Except.ok "out")
        "wf" "start" emptyMemory =
        (Except.error (StepError.backend (BackendFailure.connectError "down")),
          set_memory emptyMemory ("wf" ++ ":" ++ "A") "out") ∧
      (execute_tool_chain [("A", "ea"), ("B", "eb"), ("C", "ec")]
          [("wf", [WorkflowStep.model "A" "a", WorkflowStep.model "B" "b",
            WorkflowStep.model "C" "c"])]
          (fun ep _ _ =>
            if ep = "eb" then Except.error (BackendFailure.connectError "down")
            else Except.ok "out")
          "wf" "start" emptyMemory).2 ("wf" ++ ":" ++ "A") = some "out" ∧
      ("wf" ++ ":" ++ "C" ≠ "wf" ++ ":" ++ "A" →
        (execute_tool_chain [("A", "ea"), ("B", "eb"), ("C", "ec")]
            [("wf", [WorkflowStep.model "A" "a", WorkflowStep.model "B" "b",
              WorkflowStep.model "C" "c"])]
            (fun ep _ _ =>
              if ep = "eb" then Except.error (BackendFailure.connectError "down")
              else Except.ok "out")
            "wf" "start" emptyMemory).2 ("wf" ++ ":" ++ "C") =
          emptyMemory ("wf" ++ ":" ++ "C")) :=
  workflow_step_failure_aborts [("A", "ea"), ("B", "eb"), ("C", "ec")]
    [("wf", [WorkflowStep.model "A" "a", WorkflowStep.model "B" "b",
      WorkflowStep.model "C" "c"])]
    (fun ep _ _ =>
      if ep = "eb" then Except.error (BackendFailure.connectError "down")
      else Except.ok "out")
    "wf" "start" emptyMemory "A" "a" "B" "b" "C" "c" "ea" "eb" "out"
    (BackendFailure.connectError "down") rfl rfl rfl rfl rfl

/-- C7: executing a workflow whose name is unknown, or whose step list is
empty, runs zero steps: the input text is returned unchanged, no error is
raised, and Memory is exactly the memory passed in. -/
theorem unknown_workflow_passthrough (models : List (String × String))
    (workflows : List (String × List WorkflowStep))
    (backend : String → String → String → Except BackendFailure String)
    (name input : String) (mem : Memory)
    (h : List.lookup name workflows = none ∨
      List.lookup name workflows = some []) :
    execute_tool_chain models workflows backend name input mem =
      (Except.ok input, mem) := by
  rcases h with h | h <;> simp [execute_tool_chain, h, runSteps]

theorem unknown_workflow_passthrough_witness :
    execute_tool_chain [] [] (fun _ _ _ => Except.ok "resp")
        "nosuch" "payload" emptyMemory = (Except.ok "payload", emptyMemory) :=
  unknown_workflow_passthrough [] [] (fun _ _ _ => Except.ok "resp")
    "nosuch" "payload" emptyMemory (Or.inl rfl)

/-- C4 (counterexample): dispatching with an empty model registry makes
the lookup of the selected (fallback) identifier fail, and what reaches
the caller is the catch-all payload tagged `"internal_error"` — the
`KeyError` lands in the generic `except Exception` clause — not a
dedicated ModelNotFound classification distinct from the catch-all. -/
theorem missing_model_counterexample :
    route_to_model [] [] (fun _ _ => Except.ok "resp") ⟨none, ["hi"]⟩ =
      RouterResponse.errorPayload
        ("Internal server error: " ++ fallbackModel) "internal_error" := by
  rfl

/-- C4 (amended): when the selected model identifier is absent from the
registry, no other model is substituted and the failure reaches the
caller — in the chat handler as the catch-all `"internal_error"` payload,
and in the workflow executor as the raw `KeyError` aborting the run. -/
theorem missing_model_catchall (models : List (String × String))
    (rules : List RoutingRule)
    (backend : String → String → Except BackendFailure String)
    (req : ChatRequest) (prompt : String)
    (workflows : List (String × List WorkflowStep))
    (backend2 : String → String → String → Except BackendFailure String)
    (name input m action : String) (rest : List WorkflowStep) (mem : Memory)
    (hmsg : req.messages.getLast? = some prompt)
    (hlook : List.lookup
      (select_model rules (req.file.getD "unknown.txt") prompt) models = none)
    (hwf : List.lookup name workflows =
      some (WorkflowStep.model m action :: rest))
    (hm : List.lookup m models = none) :
    route_to_model models rules backend req =
        RouterResponse.errorPayload
          ("Internal server error: " ++
            select_model rules (req.file.getD "unknown.txt") prompt)
          "internal_error" ∧
      execute_tool_chain models workflows backend2 name input mem =
        (Except.error (StepError.keyError m), mem) := by
  constructor
  · simp [route_to_model, hmsg, hlook]
  · simp [execute_tool_chain, hwf, runSteps, hm]

theorem missing_model_catchall_witness :
    route_to_model [] [] (fun _ _ => Except.error (BackendFailure.otherError "x"))
        ⟨none, ["hello"]⟩ =
        RouterResponse.errorPayload
          ("Internal server error: " ++
            select_model [] ((⟨none, ["hello"]⟩ : ChatRequest).file.getD "unknown.txt")
              "hello")
          "internal_error" ∧
      execute_tool_chain [] [("wf", [WorkflowStep.model "M" "Act"])]
          (fun _ _ _ => Except.ok "c") "wf" "in" emptyMemory =
        (Except.error (StepError.keyError "M"), emptyMemory) :=
  missing_model_catchall [] []
    (fun _ _ => Except.error (BackendFailure.otherError "x"))
    ⟨none, ["hello"]⟩ "hello" [("wf", [WorkflowStep.model "M" "Act"])]
    (fun _ _ _ => Except.ok "c") "wf" "in" "M" "Act" [] emptyMemory
    rfl rfl rfl rfl

/-- C6 (counterexample): a backend dispatch failure inside a workflow is
not surfaced as a structured JSON payload: `execute_tool_chain` has no
handler and `run_workflow` does not catch, so the raw error crosses the
handler boundary. -/
theorem workflow_raw_exception_counterexample :
    (run_workflow [("M1", "http://e")]
        [("wf", [WorkflowStep.model "M1" "Act"])]
        (fun _ _ _ => Except.error (BackendFailure.connectError "down"))
        "wf" ⟨some "text"⟩ emptyMemory).1 =
      Except.error (StepError.backend (BackendFailure.connectError "down")) := by
  rfl

/-- C6 (amended): in the chat-completions handler every backend dispatch
failure is surfaced as a structured payload whose `type` is
`"connection_error"`, `"timeout_error"`, `"http_error"` or
`"internal_error"` according to the failure class (`errorType`), never a
raw exception; in the workflow path, a failing step's error propagates
unchanged out of `run_workflow` as a raw exception. -/
theorem dispatch_failure_payloads (models : List (String × String))
    (rules : List RoutingRule)
    (backend : String → String → Except BackendFailure String)
    (req : ChatRequest) (prompt endpoint : String) (f : BackendFailure)
    (workflows : List (String × List WorkflowStep))
    (backend2 : String → String → String → Except BackendFailure String)
    (name : String) (wreq : WorkflowRequest) (mem : Memory) (e : StepError)
    (hmsg : req.messages.getLast? = some prompt)
    (hlook : List.lookup
      (select_model rules (req.file.getD "unknown.txt") prompt) models =
        some endpoint)
    (hfail : backend endpoint
      (select_model rules (req.file.getD "unknown.txt") prompt) =
        Except.error f)
    (hwfail : (execute_tool_chain models workflows backend2 name
      (wreq.input.getD "") mem).1 = Except.error e) :
    route_to_model models rules backend req =
        RouterResponse.errorPayload (errorMessage f) (errorType f) ∧
      (run_workflow models workflows backend2 name wreq mem).1 =
        Except.error e := by
  constructor
  · cases f <;> simp [route_to_model, hmsg, hlook, hfail, errorMessage, errorType]
  · rcases hx : execute_tool_chain models workflows backend2 name
        (wreq.input.getD "") mem with ⟨res, mem2⟩
    rw [hx] at hwfail
    simp only at hwfail
    subst hwfail
    simp [run_workflow, hx]

theorem dispatch_failure_payloads_witness :
    route_to_model [(fallbackModel, "e1"), ("M", "e2")] []
        (fun _ _ => Except.error (BackendFailure.timeoutError "slow"))
        ⟨none, ["hi"]⟩ =
        RouterResponse.errorPayload
          (errorMessage (BackendFailure.timeoutError "slow"))
          (errorType (BackendFailure.timeoutError "slow")) ∧
      (run_workflow [(fallbackModel, "e1"), ("M", "e2")]
          [("wf", [WorkflowStep.model "M" "Act"])]
          (fun _ _ _ => Except.error (BackendFailure.connectError "down"))
          "wf" ⟨some "text"⟩ emptyMemory).1 =
        Except.error (StepError.backend (BackendFailure.connectError "down")) :=
  dispatch_failure_payloads [(fallbackModel, "e1"), ("M", "e2")] []
    (fun _ _ => Except.error (BackendFailure.timeoutError "slow"))
    ⟨none, ["hi"]⟩ "hi" "e1" (BackendFailure.timeoutError "slow")
    [("wf", [WorkflowStep.model "M" "Act"])]
    (fun _ _ _ => Except.error (BackendFailure.connectError "down"))
    "wf" ⟨some "text"⟩ emptyMemory
    (StepError.backend (BackendFailure.connectError "down"))
    rfl rfl rfl rfl
